import Mathlib

/-!
Verification development for the Psiphon Windows SSH transport core:
a shallow embedding of the transport connection state machine
(sshtransport.cpp: SSHTransportBase / SSHTransport / OSSHTransport) and of
the connectivity helpers (utilities.cpp: WaitForConnectability,
TestForOpenPort, GetTickCountDiff), together with theorems checking the
natural-language specification against this embedding.

Machine integers (DWORD) are modelled as Nat with explicit reduction
modulo 2^32 where the C code performs unsigned 32-bit arithmetic.
Win32 calls (sockets, process waits, the stop signal) are modelled as
per-iteration observations supplied to the loops as explicit traces.
-/

/-! ### Win32 constants used by the code -/

def ERROR_SUCCESS : Nat := 0
def WAIT_TIMEOUT : Nat := 258
def ERROR_SYSTEM_PROCESS_TERMINATED : Nat := 591
def ERROR_OPERATION_ABORTED : Nat := 995
def ERROR_UNKNOWN_PORT : Nat := 1796
def DWORD_MOD : Nat := 4294967296
def MAXDWORD : Nat := 4294967295

/-! ### Data model: session descriptor and upstream-proxy settings -/

/-- The fields of SessionInfo that the SSH transports read.  Strings are
byte strings; ports are C ints. -/
structure SessionInfo where
  serverAddress : String
  sshPort : Int
  sshObfuscatedPort : Int
  sshHostKey : String
  sshUsername : String
  sshPassword : String
  sshObfuscatedKey : String
  clientSessionID : String
deriving Repr, DecidableEq

/-- Upstream (parent) proxy settings, as produced by
GetUserParentProxySettings out-parameters. -/
structure ParentProxy where
  ptype : String
  host : String
  port : Int
  username : String
  password : String
deriving Repr, DecidableEq

/-- SSHTransportBase::GetUserParentProxySettings.  The registry values
(`reg`) take precedence when type, hostname and port are all set; the
skip flag suppresses everything; otherwise the system LAN proxy supplies
type, hostname and port while username and password keep whatever the
registry held (the code only overwrites the first three out-parameters
on that path). -/
def getUserParentProxySettings (skip : Bool) (reg : ParentProxy)
    (sysLanProxy : Option (String × String × Int)) : Option ParentProxy :=
  if skip then
    none
  else if reg.ptype ≠ "" ∧ reg.host ≠ "" ∧ reg.port ≠ 0 then
    some reg
  else
    match sysLanProxy with
    | some (t, h, p) =>
        some { ptype := t, host := h, port := p,
               username := reg.username, password := reg.password }
    | none => none

/-! ### ParameterBuilder: GetSSHParams (base, plain SSH, obfuscated SSH) -/

/-- The out-parameters of GetSSHParams. -/
structure SSHParams where
  serverAddress : String
  serverPort : Int
  serverHostKey : String
  plonkCommandLine : String
deriving Repr, DecidableEq

/-- The optional upstream-proxy argument fragment appended by
SSHTransportBase::GetSSHParams when GetUserParentProxySettings reports a
proxy. -/
def proxyArgs : Option ParentProxy → String
  | none => ""
  | some p =>
      " -proxy_type " ++ p.ptype
      ++ " -proxy_host " ++ p.host
      ++ " -proxy_port " ++ toString p.port
      ++ (if p.username ≠ "" then " -proxy_username " ++ p.username else "")
      ++ (if p.password ≠ "" then " -proxy_password " ++ p.password else "")

/-- SSHTransportBase::GetSSHParams.  Always returns true (modelled as
`some`).  Note that the server port written to the command line is the
obfuscated port field, and that every argument is inserted verbatim with
no quoting.  Release build: the debug-only " -v" flag is absent. -/
def baseGetSSHParams (plonkPath : String) (si : SessionInfo)
    (localSocksProxyPort : Int) (sshPassword : String)
    (proxy : Option ParentProxy) : Option SSHParams :=
  some
    { serverAddress := si.serverAddress
      serverPort := si.sshObfuscatedPort
      serverHostKey := si.sshHostKey
      plonkCommandLine :=
        plonkPath
        ++ " -ssh -C -N -batch"
        ++ " -P " ++ toString si.sshObfuscatedPort
        ++ " -l " ++ si.sshUsername
        ++ " -pw " ++ sshPassword
        ++ " -D " ++ toString localSocksProxyPort
        ++ proxyArgs proxy }

/-- SSHTransport::GetSSHParams (plain variant): base parameters with the
server address appended as the final positional argument. -/
def sshGetSSHParams (plonkPath : String) (si : SessionInfo)
    (localSocksProxyPort : Int) (sshPassword : String)
    (proxy : Option ParentProxy) : Option SSHParams :=
  match baseGetSSHParams plonkPath si localSocksProxyPort sshPassword proxy with
  | none => none
  | some b =>
      some { b with plonkCommandLine := b.plonkCommandLine ++ " " ++ b.serverAddress }

/-- OSSHTransport::GetSSHParams (obfuscated variant): fails fast when the
obfuscated port is not positive or the obfuscation key is empty;
otherwise base parameters plus " -z -Z key" and the trailing address. -/
def osshGetSSHParams (plonkPath : String) (si : SessionInfo)
    (localSocksProxyPort : Int) (sshPassword : String)
    (proxy : Option ParentProxy) : Option SSHParams :=
  if si.sshObfuscatedPort ≤ 0 ∨ si.sshObfuscatedKey.length ≤ 0 then
    none
  else
    match baseGetSSHParams plonkPath si localSocksProxyPort sshPassword proxy with
    | none => none
    | some b =>
        some { b with plonkCommandLine :=
                 b.plonkCommandLine ++ " -z -Z " ++ si.sshObfuscatedKey
                 ++ " " ++ b.serverAddress }

/-! ### Character-level facts about the builder output -/

/-- The ten decimal digit characters. -/
def digitChars : List Char := ['0','1','2','3','4','5','6','7','8','9']

theorem digitChar_mem_digitChars (m : Nat) (h : m < 10) : Nat.digitChar m ∈ digitChars := by
  interval_cases m <;> decide

theorem toDigitsCore_chars (b : Nat) (hb : b = 10) :
    ∀ (fuel n : Nat) (ds : List Char), (∀ c ∈ ds, c ∈ digitChars) →
      ∀ c ∈ Nat.toDigitsCore b fuel n ds, c ∈ digitChars := by
  intro fuel
  induction fuel with
  | zero => intro n ds hds c hc; exact hds c hc
  | succ f ih =>
      intro n ds hds c hc
      rw [Nat.toDigitsCore] at hc
      by_cases h0 : n / b = 0
      · simp only [h0, if_pos rfl] at hc
        rcases List.mem_cons.1 hc with h | h
        · subst h; exact digitChar_mem_digitChars _ (by rw [hb]; exact Nat.mod_lt _ (by omega))
        · exact hds c h
      · simp only [if_neg h0] at hc
        refine ih (n / b) (Nat.digitChar (n % b) :: ds) ?_ c hc
        intro d hd
        rcases List.mem_cons.1 hd with h | h
        · subst h; exact digitChar_mem_digitChars _ (by rw [hb]; exact Nat.mod_lt _ (by omega))
        · exact hds d h

theorem natRepr_chars (n : Nat) : ∀ c ∈ (Nat.repr n).data, c ∈ digitChars := by
  intro c hc
  exact toDigitsCore_chars 10 rfl (n+1) n [] (by intro d hd; cases hd) c hc

theorem intToString_chars (i : Int) : ∀ c ∈ (toString i).data, c ∈ '-' :: digitChars := by
  intro c hc
  cases i with
  | ofNat m =>
      exact List.mem_cons_of_mem _ (natRepr_chars m c hc)
  | negSucc m =>
      have h : (toString (Int.negSucc m)).data = '-' :: (Nat.repr (m+1)).data := rfl
      rw [h] at hc
      rcases List.mem_cons.1 hc with h | h
      · subst h; exact List.mem_cons_self _ _
      · exact List.mem_cons_of_mem _ (natRepr_chars (m+1) c h)

theorem intToString_no_quote (i : Int) : '\x22' ∉ (toString i).data := by
  intro h
  have := intToString_chars i _ h
  revert this
  decide

/-! ### Argv tokenization of the subordinate command line

The built command line is handed as one string to CreateProcess; the
subordinate splits it into arguments on (unquoted) spaces, double quotes
grouping text that contains spaces into a single argument.  A credential
is passed "atomically" when it appears as a single token of this split. -/

/-- Space splitting with double-quote grouping, accumulator style.
`cur` is the current token, reversed; `inQ` is the inside-quotes flag. -/
def argvTokensAux : List Char → List Char → Bool → List (List Char)
  | [], cur, _ => if cur.isEmpty then [] else [cur.reverse]
  | c :: cs, cur, inQ =>
    if c = '\x22' then argvTokensAux cs cur (!inQ)
    else if c = ' ' ∧ inQ = false then
      if cur.isEmpty then argvTokensAux cs [] false
      else cur.reverse :: argvTokensAux cs [] false
    else argvTokensAux cs (c :: cur) inQ

/-- The argument tokens of a command-line string. -/
def argvTokens (s : String) : List (List Char) := argvTokensAux s.data [] false

/-- In a command line containing no double-quote character, no argument
token contains a space. -/
theorem argvTokensAux_no_space (cs : List Char) :
    ∀ (cur : List Char), '\x22' ∉ cs → ' ' ∉ cur →
      ∀ t ∈ argvTokensAux cs cur false, ' ' ∉ t := by
  induction cs with
  | nil =>
      intro cur _ hcur t ht
      by_cases h : cur.isEmpty
      · rw [argvTokensAux, if_pos h] at ht; cases ht
      · rw [argvTokensAux, if_neg h] at ht
        rcases List.mem_singleton.1 ht with rfl
        simpa using hcur
  | cons c cs ih =>
      intro cur hq hcur t ht
      have hcq : c ≠ '\x22' := fun h => hq (h ▸ List.mem_cons_self c cs)
      have hq' : '\x22' ∉ cs := fun h => hq (List.mem_cons_of_mem _ h)
      rw [argvTokensAux, if_neg hcq] at ht
      by_cases hsp : c = ' '
      · rw [if_pos (by simp [hsp])] at ht
        by_cases h : cur.isEmpty
        · rw [if_pos h] at ht
          exact ih [] hq' (by simp) t ht
        · rw [if_neg h] at ht
          rcases List.mem_cons.1 ht with rfl | hmem
          · simpa using hcur
          · exact ih [] hq' (by simp) t hmem
      · rw [if_neg (by simp [hsp])] at ht
        refine ih (c :: cur) hq' ?_ t ht
        intro hmem
        rcases List.mem_cons.1 hmem with h | h
        · exact hsp h.symm
        · exact hcur h

theorem argvTokens_no_space (s : String) (hq : '\x22' ∉ s.data) :
    ∀ t ∈ argvTokens s, ' ' ∉ t :=
  argvTokensAux_no_space s.data [] hq (by simp)

/-- A string is quote-free when it contains no double-quote byte. -/
def noQuote (s : String) : Prop := '\x22' ∉ s.data

instance (s : String) : Decidable (noQuote s) :=
  inferInstanceAs (Decidable ('\x22' ∉ s.data))

theorem noQuote_append (a b : String) (ha : noQuote a) (hb : noQuote b) :
    noQuote (a ++ b) := by
  unfold noQuote at *
  rw [String.data_append]
  intro h
  rcases List.mem_append.1 h with h | h
  · exact ha h
  · exact hb h

theorem noQuote_toString_int (i : Int) : noQuote (toString i) :=
  intToString_no_quote i

theorem noQuote_proxyArgs (proxy : Option ParentProxy)
    (hp : ∀ p, proxy = some p →
      noQuote p.ptype ∧ noQuote p.host ∧ noQuote p.username ∧ noQuote p.password) :
    noQuote (proxyArgs proxy) := by
  cases proxy with
  | none =>
      intro h; cases h
  | some p =>
      obtain ⟨h1, h2, h3, h4⟩ := hp p rfl
      have hu : noQuote (if p.username ≠ "" then " -proxy_username " ++ p.username else "") := by
        split_ifs
        · exact noQuote_append _ _ (by decide) h3
        · decide
      have hw : noQuote (if p.password ≠ "" then " -proxy_password " ++ p.password else "") := by
        split_ifs
        · exact noQuote_append _ _ (by decide) h4
        · decide
      unfold proxyArgs
      exact noQuote_append _ _
        (noQuote_append _ _
          (noQuote_append _ _
            (noQuote_append _ _
              (noQuote_append _ _
                (noQuote_append _ _ (by decide) h1)
                (by decide))
              h2)
            (by decide))
          (noQuote_toString_int _))
        hu |> fun h => noQuote_append _ _ h hw

/-- The full command line produced by the plain variant contains no
double-quote character when none of the inserted fields contains one:
the builder introduces no quoting of its own. -/
theorem sshGetSSHParams_noQuote (path : String) (si : SessionInfo) (port : Int)
    (pwd : String) (proxy : Option ParentProxy) (ps : SSHParams)
    (hps : sshGetSSHParams path si port pwd proxy = some ps)
    (hpath : noQuote path) (haddr : noQuote si.serverAddress)
    (huser : noQuote si.sshUsername) (hpwd : noQuote pwd)
    (hproxy : ∀ p, proxy = some p →
      noQuote p.ptype ∧ noQuote p.host ∧ noQuote p.username ∧ noQuote p.password) :
    noQuote ps.plonkCommandLine := by
  simp only [sshGetSSHParams, baseGetSSHParams, Option.some.injEq] at hps
  rw [← hps]
  exact noQuote_append _ _
    (noQuote_append _ _
      (noQuote_append _ _
        (noQuote_append _ _
          (noQuote_append _ _
            (noQuote_append _ _
              (noQuote_append _ _
                (noQuote_append _ _
                  (noQuote_append _ _
                    (noQuote_append _ _ hpath (by decide))
                    (by decide))
                  (noQuote_toString_int _))
                (by decide))
              huser)
            (by decide))
          hpwd)
        (by decide))
      (noQuote_toString_int _))
    (noQuote_proxyArgs proxy hproxy) |> fun h =>
      noQuote_append _ _ (noQuote_append _ _ h (by decide)) haddr

/-! ### Claims C1 and C2: the password argument of the built command line -/

/-- Claim C1: for every session descriptor satisfying the plain-variant
requirements (non-empty server address, SSH port > 0, non-empty host key,
non-empty username, non-empty password), plain-variant parameter building
succeeds (GetSSHParams returns true), and the produced command line
contains a -pw argument whose value is exactly the client session
identifier immediately followed, byte for byte, by the SSH password
(the " -D " delimiter follows immediately after). -/
theorem plain_getSSHParams_succeeds_pw_prepends_session_id
    (plonkPath : String) (si : SessionInfo) (localPort : Int)
    (proxy : Option ParentProxy)
    (hAddr : si.serverAddress ≠ "") (hPort : 0 < si.sshPort)
    (hKey : si.sshHostKey ≠ "") (hUser : si.sshUsername ≠ "")
    (hPwd : si.sshPassword ≠ "") :
    ∃ ps : SSHParams,
      sshGetSSHParams plonkPath si localPort
        (si.clientSessionID ++ si.sshPassword) proxy = some ps
      ∧ ∃ pre post : String,
          ps.plonkCommandLine =
            pre ++ " -pw " ++ (si.clientSessionID ++ si.sshPassword) ++ " -D " ++ post := by
  refine ⟨_, rfl,
    plonkPath ++ " -ssh -C -N -batch" ++ " -P " ++ toString si.sshObfuscatedPort
      ++ " -l " ++ si.sshUsername,
    toString localPort ++ proxyArgs proxy ++ " " ++ si.serverAddress, ?_⟩
  simp [sshGetSSHParams, baseGetSSHParams, String.append_assoc]

/-- A session descriptor meeting the plain-variant requirements, used to
instantiate the C1 theorem. -/
def c1si : SessionInfo :=
  { serverAddress := "203.0.113.5", sshPort := 22, sshObfuscatedPort := 8080,
    sshHostKey := "hk", sshUsername := "u", sshPassword := "pw",
    sshObfuscatedKey := "k", clientSessionID := "sid" }

theorem plain_getSSHParams_succeeds_pw_prepends_session_id_witness :
    (c1si.serverAddress ≠ "" ∧ 0 < c1si.sshPort ∧ c1si.sshHostKey ≠ ""
      ∧ c1si.sshUsername ≠ "" ∧ c1si.sshPassword ≠ "")
    ∧ ∃ ps : SSHParams,
        sshGetSSHParams "plonk.exe" c1si 1080
          (c1si.clientSessionID ++ c1si.sshPassword) none = some ps
        ∧ ∃ pre post : String,
            ps.plonkCommandLine =
              pre ++ " -pw " ++ (c1si.clientSessionID ++ c1si.sshPassword) ++ " -D " ++ post :=
  ⟨by decide,
    plain_getSSHParams_succeeds_pw_prepends_session_id "plonk.exe" c1si 1080 none
      (by decide) (by decide) (by decide) (by decide) (by decide)⟩

/-- Claim C2 (amended): command-line construction performs no quoting or
escaping; every field is inserted verbatim, so whenever the inputs
contain no double-quote character, a credential containing a space is
never passed atomically: no argv token of the produced command line
equals it. -/
theorem credential_with_space_never_atomic
    (plonkPath : String) (si : SessionInfo) (localPort : Int)
    (pwd cred : String) (proxy : Option ParentProxy) (ps : SSHParams)
    (hps : sshGetSSHParams plonkPath si localPort pwd proxy = some ps)
    (hpath : noQuote plonkPath) (haddr : noQuote si.serverAddress)
    (huser : noQuote si.sshUsername) (hpwd : noQuote pwd)
    (hproxy : ∀ p, proxy = some p →
      noQuote p.ptype ∧ noQuote p.host ∧ noQuote p.username ∧ noQuote p.password)
    (hcred : ' ' ∈ cred.data) :
    ∀ t ∈ argvTokens ps.plonkCommandLine, t ≠ cred.data := by
  intro t ht heq
  have hnq : noQuote ps.plonkCommandLine :=
    sshGetSSHParams_noQuote plonkPath si localPort pwd proxy ps hps
      hpath haddr huser hpwd hproxy
  have hns := argvTokens_no_space ps.plonkCommandLine hnq t ht
  rw [heq] at hns
  exact hns hcred

/-- A session descriptor whose SSH password contains a space. -/
def c2si : SessionInfo :=
  { serverAddress := "203.0.113.5", sshPort := 22, sshObfuscatedPort := 8080,
    sshHostKey := "hk", sshUsername := "u", sshPassword := "p w",
    sshObfuscatedKey := "k", clientSessionID := "" }

/-- The parameters the plain builder actually produces for `c2si`. -/
def c2ps : SSHParams :=
  { serverAddress := "203.0.113.5", serverPort := 8080, serverHostKey := "hk",
    plonkCommandLine :=
      "plonk.exe -ssh -C -N -batch -P 8080 -l u -pw p w -D 1080 203.0.113.5" }

/-- Counterexample to claim C2 as stated: for the descriptor `c2si`,
parameter building succeeds and inserts the password verbatim, and the
space-containing credential "p w" is not passed atomically: no argv
token of the produced command line equals it. -/
theorem credential_quoting_counterexample :
    sshGetSSHParams "plonk.exe" c2si 1080
      (c2si.clientSessionID ++ c2si.sshPassword) none = some c2ps
    ∧ ' ' ∈ "p w".data
    ∧ ((argvTokens c2ps.plonkCommandLine).all fun t => t ≠ "p w".data) = true := by
  refine ⟨by decide, by decide, by decide⟩

theorem credential_with_space_never_atomic_witness :
    sshGetSSHParams "plonk.exe" c2si 1080 (c2si.clientSessionID ++ c2si.sshPassword) none
        = some c2ps
    ∧ ∀ t ∈ argvTokens c2ps.plonkCommandLine, t ≠ "p w".data :=
  ⟨by decide,
    credential_with_space_never_atomic "plonk.exe" c2si 1080
      (c2si.clientSessionID ++ c2si.sshPassword) "p w" none c2ps (by decide)
      (by decide) (by decide) (by decide) (by decide)
      (fun p h => nomatch h) (by decide)⟩

/-! ### ConnectivityWaiter: WaitForConnectability (utilities.cpp)

Each pass of the while loop reads the tick counter, attempts one
non-blocking connect bounded by a 100 ms event wait, then (only on a
failed attempt) polls the process handle and the stop signal.  One pass
is modelled as an observation record; the loop consumes a list of such
records.  `none` means the supplied trace ended before the loop returned. -/

/-- What one pass of the WaitForConnectability loop observes. -/
structure ProbeObs where
  /-- GetTickCount at the top of the pass (reduced mod 2^32 when read). -/
  now : Nat
  /-- whether the connect attempt chain succeeded within this pass
  (socket ok, event selected, WSAEWOULDBLOCK, event signalled within
  100 ms, FD_CONNECT with no error). -/
  connectOk : Bool
  /-- whether WaitForSingleObject(process, 0) returned WAIT_OBJECT_0. -/
  processDead : Bool
  /-- whether stopInfo.stopSignal reported a stop reason. -/
  stopSignalled : Bool
deriving Repr, DecidableEq

/-- The while loop of WaitForConnectability.  The timeout test compares
raw DWORD tick values: `now < start` (wrapped counter) or
`now >= start + maxWait` (the sum itself wrapping mod 2^32) both yield
WAIT_TIMEOUT immediately. -/
def waitLoop (start maxWait : Nat) (hasProcess : Bool) :
    List ProbeObs → Option Nat
  | [] => none
  | o :: rest =>
      if o.now % DWORD_MOD < start % DWORD_MOD
          ∨ (start % DWORD_MOD + maxWait % DWORD_MOD) % DWORD_MOD ≤ o.now % DWORD_MOD then
        some WAIT_TIMEOUT
      else if o.connectOk then
        some ERROR_SUCCESS
      else if hasProcess ∧ o.processDead then
        some ERROR_SYSTEM_PROCESS_TERMINATED
      else if o.stopSignalled then
        some ERROR_OPERATION_ABORTED
      else
        waitLoop start maxWait hasProcess rest

/-- WaitForConnectability: the port-range guard, then the wait loop
starting from the tick value read before the loop. -/
def waitForConnectability (port : Nat) (timeout : Nat) (hasProcess : Bool)
    (start : Nat) (trace : List ProbeObs) : Option Nat :=
  if port = 0 ∨ port > 65535 then some ERROR_UNKNOWN_PORT
  else waitLoop start timeout hasProcess trace

/-- GetTickCountDiff (utilities.cpp): elapsed milliseconds between two
DWORD tick readings, adjusting when the counter wrapped. -/
def getTickCountDiff (start endTick : Nat) : Nat :=
  if start = 0 then 0
  else if endTick < start then (MAXDWORD - start) + endTick
  else endTick - start

/-! ### PortNegotiator: TestForOpenPort (utilities.cpp)

The probe for each candidate is WaitForConnectability(port, 100, no
process, stopInfo); the negotiator only looks at whether that call
returned ERROR_SUCCESS (someone answered, so the port is taken).  The
per-port DWORD result is abstracted as `probeResult`. -/

/-- The candidate-validity guard of the loop body. -/
def validPort (p : Int) : Bool := 0 < p ∧ p ≤ 65535

/-- Whether the negotiator treats candidate `p` as free: any probe result
other than ERROR_SUCCESS counts as "nothing listening". -/
def portFree (probeResult : Int → Nat) (p : Int) : Bool :=
  probeResult p ≠ ERROR_SUCCESS

/-- The do-while loop of TestForOpenPort: the body runs once for
`targetPort` and then once more per increment while `targetPort + 1 <=
maxPort`; `fuel` counts the remaining increments. -/
def testLoop (probeResult : Int → Nat) : Int → Nat → Option Int
  | p, 0 => if validPort p ∧ portFree probeResult p then some p else none
  | p, fuel + 1 =>
      if validPort p ∧ portFree probeResult p then some p
      else testLoop probeResult (p + 1) fuel

/-- TestForOpenPort: scans `[targetPort, targetPort + maxIncrement]`,
returning the candidate at which it stopped (the by-reference out value)
or `none` when the loop fell through (the function returned false). -/
def testForOpenPort (probeResult : Int → Nat) (targetPort maxIncrement : Int) :
    Option Int :=
  testLoop probeResult targetPort maxIncrement.toNat

/-- The candidates the loop actually probes (in order): valid ports are
probed, invalid ones are skipped without a probe. -/
def probedPorts (probeResult : Int → Nat) : Int → Nat → List Int
  | p, 0 => if validPort p then [p] else []
  | p, fuel + 1 =>
      if validPort p then
        if portFree probeResult p then [p]
        else p :: probedPorts probeResult (p + 1) fuel
      else probedPorts probeResult (p + 1) fuel

/-! ### ProcessSupervisor state: m_plonkProcessInfo and Cleanup -/

/-- INVALID_HANDLE_VALUE, i.e. (HANDLE)-1 on a 64-bit build. -/
def INVALID_HANDLE_VALUE : Nat := 18446744073709551615

/-- The PROCESS_INFORMATION block the transport zeroes and fills. -/
structure ProcessInformation where
  hProcess : Nat
  hThread : Nat
  dwProcessId : Nat
  dwThreadId : Nat
deriving Repr, DecidableEq

/-- The transport-side process state: the stored PROCESS_INFORMATION plus
whether a subordinate plonk process is actually running (the world fact
StopProcess changes). -/
structure PlonkState where
  plonkProcessInfo : ProcessInformation
  subordinateAlive : Bool
deriving Repr, DecidableEq

/-- StopProcess: graceful break then forced TerminateProcess; in either
case the subordinate is no longer running afterwards. -/
def stopProcess (st : PlonkState) : PlonkState :=
  { st with subordinateAlive := false }

/-- SSHTransportBase::Cleanup.  Stops the process when a non-null,
non-invalid handle is stored, closes the handle, zeroes the stored
PROCESS_INFORMATION, and always returns true. -/
def cleanupPlonk (st : PlonkState) : Bool × PlonkState :=
  let st1 :=
    if st.plonkProcessInfo.hProcess ≠ 0
        ∧ st.plonkProcessInfo.hProcess ≠ INVALID_HANDLE_VALUE then
      stopProcess st
    else st
  (true, { st1 with plonkProcessInfo := ⟨0, 0, 0, 0⟩ })

/-! ### TransportConnectionManager: TransportConnect / TransportConnectHelper

The helper is sequential; every Win32 outcome it depends on is a field of
`ConnectEnv`.  The event list records the externally visible side effects
in order: Cleanup calls, the negotiated port, the process launch, and the
SOCKS-port registration.  (SetPlonkSSHHostKey is best-effort and its
result is ignored by the caller, so it is not an event.) -/

inductive TCEvent where
  | evCleanup
  | evNegotiate (port : Int)
  | evLaunch
  | evSetSocksPort (port : Int)
deriving Repr, DecidableEq

inductive TCOutcome where
  | connected (localProxyPort : Int)
  | transportFailed
  | aborted
deriving Repr, DecidableEq

/-- The two transport variants sharing SSHTransportBase. -/
inductive TransportVariant where
  | plainSSH
  | obfuscatedSSH
deriving Repr, DecidableEq

/-- Per-variant GetSSHParams dispatch. -/
def getSSHParamsFor : TransportVariant → String → SessionInfo → Int → String →
    Option ParentProxy → Option SSHParams
  | .plainSSH => sshGetSSHParams
  | .obfuscatedSSH => osshGetSSHParams

/-- The environment of one connection attempt: results of the OS calls
the helper makes, in the order it makes them. -/
structure ConnectEnv where
  /-- m_plonkPath at entry ("" when the executable was never extracted). -/
  plonkPathInitial : String
  /-- ExtractExecutable result, consulted only when the path is empty. -/
  extractOk : Bool
  /-- the path ExtractExecutable produces on success. -/
  extractedPath : String
  /-- result of the 100 ms availability probe per candidate port. -/
  probeResult : Int → Nat
  /-- UserSkipSSHParentProxySettings flag. -/
  skipProxy : Bool
  /-- registry-backed parent proxy settings. -/
  regProxy : ParentProxy
  /-- system LAN proxy settings (type, host, port), when present. -/
  sysLanProxy : Option (String × String × Int)
  /-- whether CreateProcess succeeds in LaunchPlonk. -/
  launchOk : Bool
  /-- DWORD result of WaitForConnectability on the SOCKS port (20 s). -/
  waitResult : Nat

/-- SSHTransportBase::TransportConnectHelper: extract the executable if
needed, Cleanup to a clean state, build the session password, negotiate
the local SOCKS port starting at 1080 with 10 increments, build the
plonk parameters, launch, then wait for connectability. -/
def transportConnectHelper (variant : TransportVariant) (si : SessionInfo)
    (env : ConnectEnv) : TCOutcome × List TCEvent :=
  if env.plonkPathInitial = "" ∧ env.extractOk = false then
    (.transportFailed, [])
  else
    let plonkPath := if env.plonkPathInitial = "" then env.extractedPath
                     else env.plonkPathInitial
    let evs := [TCEvent.evCleanup]
    let sshPassword := si.clientSessionID ++ si.sshPassword
    match testForOpenPort env.probeResult 1080 10 with
    | none => (.transportFailed, evs)
    | some localSocksProxyPort =>
        let evs := evs ++ [TCEvent.evNegotiate localSocksProxyPort]
        match getSSHParamsFor variant plonkPath si localSocksProxyPort sshPassword
            (getUserParentProxySettings env.skipProxy env.regProxy env.sysLanProxy) with
        | none => (.transportFailed, evs)
        | some _ =>
            if env.launchOk = false then (.transportFailed, evs)
            else
              let evs := evs ++ [TCEvent.evLaunch]
              if env.waitResult = ERROR_OPERATION_ABORTED then (.aborted, evs)
              else if env.waitResult ≠ ERROR_SUCCESS then (.transportFailed, evs)
              else (.connected localSocksProxyPort,
                    evs ++ [TCEvent.evSetSocksPort localSocksProxyPort])

/-- SSHTransportBase::TransportConnect: the IsServerSSHCapable guard
(host key present) throws TransportFailed before the try block, so that
path performs no Cleanup; inside the try, any failure or abort of the
helper runs Cleanup and rethrows. -/
def transportConnect (variant : TransportVariant) (si : SessionInfo)
    (env : ConnectEnv) : TCOutcome × List TCEvent :=
  if si.sshHostKey.length = 0 then
    (.transportFailed, [])
  else
    let r := transportConnectHelper variant si env
    match r.1 with
    | .connected _ => r
    | _ => (r.1, r.2 ++ [TCEvent.evCleanup])

/-! ### Claims about Cleanup and the connect lifecycle -/

theorem strLength_eq_zero_iff (s : String) : s.length = 0 ↔ s = "" := by
  constructor
  · intro h
    cases s with
    | mk l =>
        cases l with
        | nil => rfl
        | cons c cs => simp [String.length] at h
  · intro h; subst h; rfl

/-- Claim C9: Cleanup is idempotent: on every state (no process ever
launched, live process, dead handle) it returns true, zeroes the stored
PROCESS_INFORMATION, and a second consecutive call returns true again
and leaves the state exactly as the first call left it. -/
theorem cleanup_idempotent (st : PlonkState) :
    (cleanupPlonk st).1 = true
    ∧ (cleanupPlonk st).2.plonkProcessInfo = ⟨0, 0, 0, 0⟩
    ∧ cleanupPlonk (cleanupPlonk st).2 = (true, (cleanupPlonk st).2) := by
  unfold cleanupPlonk stopProcess
  split_ifs with h1 <;> simp_all [INVALID_HANDLE_VALUE]

/-- Claim C3: for the obfuscated variant, a non-positive obfuscated port
or an empty obfuscation key makes OSSHTransport::GetSSHParams return
false immediately, even when every plain-variant field is present; in
the connect lifecycle the attempt then surfaces TransportFailed and the
subordinate process is never launched. -/
theorem ossh_missing_obfuscation_fails_fast (si : SessionInfo)
    (hAddr : si.serverAddress ≠ "") (hPort : 0 < si.sshPort)
    (hKey : si.sshHostKey ≠ "") (hUser : si.sshUsername ≠ "")
    (hPwd : si.sshPassword ≠ "")
    (hMissing : si.sshObfuscatedPort ≤ 0 ∨ si.sshObfuscatedKey = "") :
    (∀ (path : String) (port : Int) (pwd : String) (proxy : Option ParentProxy),
      osshGetSSHParams path si port pwd proxy = none)
    ∧ ∀ env : ConnectEnv,
        (transportConnect .obfuscatedSSH si env).1 = .transportFailed
        ∧ TCEvent.evLaunch ∉ (transportConnect .obfuscatedSSH si env).2 := by
  have hguard : si.sshObfuscatedPort ≤ 0 ∨ si.sshObfuscatedKey.length ≤ 0 := by
    rcases hMissing with h | h
    · exact Or.inl h
    · exact Or.inr (le_of_eq ((strLength_eq_zero_iff _).mpr h))
  have hnone : ∀ (path : String) (port : Int) (pwd : String) (proxy : Option ParentProxy),
      osshGetSSHParams path si port pwd proxy = none := by
    intro path port pwd proxy
    unfold osshGetSSHParams
    rw [if_pos hguard]
  refine ⟨hnone, ?_⟩
  intro env
  have hlen : ¬ si.sshHostKey.length = 0 := fun h => hKey ((strLength_eq_zero_iff _).mp h)
  simp only [transportConnect, if_neg hlen, transportConnectHelper, getSSHParamsFor, hnone]
  by_cases hex : env.plonkPathInitial = "" ∧ env.extractOk = false
  · rw [if_pos hex]
    refine ⟨rfl, by decide⟩
  · rw [if_neg hex]
    cases htest : testForOpenPort env.probeResult 1080 10 with
    | none => exact ⟨rfl, by decide⟩
    | some p =>
        refine ⟨rfl, ?_⟩
        simp

/-- A descriptor with every plain-variant field present but an empty
obfuscation key. -/
def c3si : SessionInfo :=
  { serverAddress := "203.0.113.5", sshPort := 22, sshObfuscatedPort := 8080,
    sshHostKey := "hk", sshUsername := "u", sshPassword := "p",
    sshObfuscatedKey := "", clientSessionID := "s" }

/-- An environment in which every OS interaction succeeds. -/
def benignEnv : ConnectEnv :=
  { plonkPathInitial := "plonk.exe", extractOk := true, extractedPath := "plonk.exe",
    probeResult := fun _ => WAIT_TIMEOUT, skipProxy := true,
    regProxy := ⟨"", "", 0, "", ""⟩, sysLanProxy := none,
    launchOk := true, waitResult := ERROR_SUCCESS }

theorem ossh_missing_obfuscation_fails_fast_witness :
    (c3si.serverAddress ≠ "" ∧ 0 < c3si.sshPort ∧ c3si.sshHostKey ≠ ""
      ∧ c3si.sshUsername ≠ "" ∧ c3si.sshPassword ≠ "" ∧ c3si.sshObfuscatedKey = "")
    ∧ osshGetSSHParams "plonk.exe" c3si 1080 "sp" none = none
    ∧ (transportConnect .obfuscatedSSH c3si benignEnv).1 = .transportFailed
    ∧ TCEvent.evLaunch ∉ (transportConnect .obfuscatedSSH c3si benignEnv).2 := by
  have h := ossh_missing_obfuscation_fails_fast c3si (by decide) (by decide)
    (by decide) (by decide) (by decide) (Or.inr (by decide))
  exact ⟨by decide, h.1 "plonk.exe" 1080 "sp" none, (h.2 benignEnv).1, (h.2 benignEnv).2⟩

/-- A descriptor with a host key but an empty username: the plain
variant requires a username, yet the connect precheck does not reject
it. -/
def c7si : SessionInfo :=
  { serverAddress := "203.0.113.5", sshPort := 22, sshObfuscatedPort := 8080,
    sshHostKey := "hk", sshUsername := "", sshPassword := "p",
    sshObfuscatedKey := "k", clientSessionID := "s" }

/-- Counterexample to claim C7 as stated: `c7si` is missing a field the
plain variant requires (the username is empty), yet the attempt is not
failed at the first transition: with every OS call succeeding it runs
through port negotiation, launch, and connects. -/
theorem precheck_misses_required_fields_counterexample :
    c7si.sshUsername = ""
    ∧ transportConnect .plainSSH c7si benignEnv =
        (.connected 1080,
         [TCEvent.evCleanup, TCEvent.evNegotiate 1080, TCEvent.evLaunch,
          TCEvent.evSetSocksPort 1080]) := by
  refine ⟨rfl, by decide⟩

/-- Claim C7 (amended): at the first transition the manager validates
only the presence of the SSH host key (IsServerSSHCapable): an attempt
fails before any side effect (no Cleanup, no port negotiation, no
launch) exactly when the host key is empty; no other missing field is
detected at that step. -/
theorem precheck_validates_only_host_key (variant : TransportVariant)
    (si : SessionInfo) (env : ConnectEnv) :
    ((transportConnect variant si env).1 = .transportFailed
      ∧ (transportConnect variant si env).2 = [])
    ↔ si.sshHostKey = "" := by
  constructor
  · rintro ⟨hout, hev⟩
    by_contra hkey
    have hlen : ¬ si.sshHostKey.length = 0 :=
      fun h => hkey ((strLength_eq_zero_iff _).mp h)
    simp only [transportConnect, if_neg hlen] at hout hev
    rcases hc : (transportConnectHelper variant si env).1 with p | _ | _ <;>
      rw [hc] at hout hev <;> simp at hout hev
    · rw [hc] at hout; exact TCOutcome.noConfusion hout
  · intro h
    have hlen : si.sshHostKey.length = 0 := (strLength_eq_zero_iff _).mpr h
    simp [transportConnect, hlen]

/-- A descriptor with an empty host key: the capability precheck fails. -/
def c8si : SessionInfo :=
  { serverAddress := "203.0.113.5", sshPort := 22, sshObfuscatedPort := 8080,
    sshHostKey := "", sshUsername := "u", sshPassword := "p",
    sshObfuscatedKey := "k", clientSessionID := "s" }

/-- Counterexample to claim C8 as stated: the attempt on `c8si`
terminates in failure (TransportFailed from the IsServerSSHCapable
guard, thrown before the try block), yet Cleanup is never invoked on
this path. -/
theorem cleanup_skipped_on_precheck_failure_counterexample :
    (transportConnect .plainSSH c8si benignEnv).1 = .transportFailed
    ∧ (transportConnect .plainSSH c8si benignEnv).2 = []
    ∧ TCEvent.evCleanup ∉ (transportConnect .plainSSH c8si benignEnv).2 := by
  refine ⟨by decide, by decide, by decide⟩

/-- Claim C8 (amended): for every failure or abort arising after the
host-key precheck (anywhere inside TransportConnectHelper, including
after the subordinate was launched), Cleanup is the last action before
control returns to the caller; only the initial IsServerSSHCapable
failure path returns TransportFailed without running Cleanup. -/
theorem cleanup_runs_last_on_helper_failure (variant : TransportVariant)
    (si : SessionInfo) (env : ConnectEnv)
    (hkey : si.sshHostKey ≠ "")
    (hfail : (transportConnect variant si env).1 = .transportFailed
           ∨ (transportConnect variant si env).1 = .aborted) :
    (transportConnect variant si env).2.getLast? = some TCEvent.evCleanup := by
  have hlen : ¬ si.sshHostKey.length = 0 :=
    fun h => hkey ((strLength_eq_zero_iff _).mp h)
  rcases hhelp : transportConnectHelper variant si env with ⟨out, evs⟩
  simp only [transportConnect, if_neg hlen, hhelp] at hfail ⊢
  cases out with
  | connected p => simp at hfail
  | transportFailed => exact List.getLast?_concat _
  | aborted => exact List.getLast?_concat _

/-- A plain-field-complete descriptor with a host key, used where a
post-launch failure is needed. -/
def c8okSi : SessionInfo :=
  { serverAddress := "203.0.113.5", sshPort := 22, sshObfuscatedPort := 8080,
    sshHostKey := "hk", sshUsername := "u", sshPassword := "p",
    sshObfuscatedKey := "k", clientSessionID := "s" }

/-- An environment where the subordinate launches but never becomes
connectable within the 20 s deadline. -/
def timeoutEnv : ConnectEnv :=
  { benignEnv with waitResult := WAIT_TIMEOUT }

theorem cleanup_runs_last_on_helper_failure_witness :
    c8okSi.sshHostKey ≠ ""
    ∧ ((transportConnect .plainSSH c8okSi timeoutEnv).1 = .transportFailed
        ∨ (transportConnect .plainSSH c8okSi timeoutEnv).1 = .aborted)
    ∧ (transportConnect .plainSSH c8okSi timeoutEnv).2.getLast? = some TCEvent.evCleanup :=
  ⟨by decide, Or.inl (by decide),
    cleanup_runs_last_on_helper_failure .plainSSH c8okSi timeoutEnv
      (by decide) (Or.inl (by decide))⟩

/-! ### Claim C4: TestForOpenPort characterization -/

theorem testLoop_eq_some (pr : Int → Nat) :
    ∀ (fuel : Nat) (p q : Int),
      testLoop pr p fuel = some q ↔
        (p ≤ q ∧ q ≤ p + (fuel : Int) ∧ validPort q ∧ portFree pr q
         ∧ ∀ r, p ≤ r → r < q → ¬(validPort r ∧ portFree pr r)) := by
  intro fuel
  induction fuel with
  | zero =>
      intro p q
      constructor
      · intro h
        unfold testLoop at h
        split at h
        · rename_i hcond
          injection h with h
          subst h
          exact ⟨le_refl _, by simp, hcond.1, hcond.2,
            fun r h1 h2 => absurd (lt_of_le_of_lt h1 h2) (lt_irrefl _)⟩
        · exact absurd h (by simp)
      · rintro ⟨h1, h2, h3, h4, h5⟩
        have : q = p := by omega
        subst this
        unfold testLoop
        rw [if_pos ⟨h3, h4⟩]
  | succ n ih =>
      intro p q
      unfold testLoop
      by_cases hc : validPort p ∧ portFree pr p
      · rw [if_pos hc]
        constructor
        · intro h
          injection h with h
          subst h
          exact ⟨le_refl _, by omega, hc.1, hc.2,
            fun r h1 h2 => absurd (lt_of_le_of_lt h1 h2) (lt_irrefl _)⟩
        · rintro ⟨h1, h2, h3, h4, h5⟩
          rcases lt_or_eq_of_le h1 with h | h
          · exact absurd hc (h5 p (le_refl _) h)
          · rw [h]
      · rw [if_neg hc]
        rw [ih (p + 1) q]
        constructor
        · rintro ⟨h1, h2, h3, h4, h5⟩
          refine ⟨by omega, by omega, h3, h4, ?_⟩
          intro r hr1 hr2
          rcases lt_or_eq_of_le hr1 with h | h
          · exact h5 r (by omega) hr2
          · rw [← h]; exact hc
        · rintro ⟨h1, h2, h3, h4, h5⟩
          have hpq : p < q := by
            rcases lt_or_eq_of_le h1 with h | h
            · exact h
            · exfalso
              rw [← h] at h3 h4
              exact hc ⟨h3, h4⟩
          refine ⟨by omega, by omega, h3, h4, ?_⟩
          intro r hr1 hr2
          exact h5 r (by omega) hr2

theorem testLoop_eq_none (pr : Int → Nat) :
    ∀ (fuel : Nat) (p : Int),
      testLoop pr p fuel = none ↔
        ∀ r, p ≤ r → r ≤ p + (fuel : Int) → ¬(validPort r ∧ portFree pr r) := by
  intro fuel
  induction fuel with
  | zero =>
      intro p
      constructor
      · intro h r h1 h2
        have : r = p := by omega
        subst this
        unfold testLoop at h
        split at h
        · exact absurd h (by simp)
        · rename_i hcond; exact hcond
      · intro h
        unfold testLoop
        rw [if_neg (h p (le_refl _) (by simp))]
  | succ n ih =>
      intro p
      unfold testLoop
      by_cases hc : validPort p ∧ portFree pr p
      · rw [if_pos hc]
        constructor
        · intro h; exact absurd h (by simp)
        · intro h; exact absurd hc (h p (le_refl _) (by omega))
      · rw [if_neg hc, ih (p + 1)]
        constructor
        · intro h r h1 h2
          rcases lt_or_eq_of_le h1 with hx | hx
          · exact h r (by omega) (by omega)
          · rw [← hx]; exact hc
        · intro h r h1 h2
          exact h r (by omega) (by omega)

theorem probedPorts_length (pr : Int → Nat) :
    ∀ (fuel : Nat) (p : Int), (probedPorts pr p fuel).length ≤ fuel + 1 := by
  intro fuel
  induction fuel with
  | zero =>
      intro p
      unfold probedPorts
      split <;> simp
  | succ n ih =>
      intro p
      unfold probedPorts
      split
      · split
        · simp
        · simpa [Nat.succ_le_succ_iff] using ih (p + 1)
      · exact le_trans (ih (p + 1)) (by omega)

theorem probedPorts_mem (pr : Int → Nat) :
    ∀ (fuel : Nat) (p q : Int), q ∈ probedPorts pr p fuel → p ≤ q := by
  intro fuel
  induction fuel with
  | zero =>
      intro p q hq
      unfold probedPorts at hq
      split at hq
      · rcases List.mem_singleton.1 hq with rfl; exact le_refl _
      · cases hq
  | succ n ih =>
      intro p q hq
      unfold probedPorts at hq
      split at hq
      · split at hq
        · rcases List.mem_singleton.1 hq with rfl; exact le_refl _
        · rcases List.mem_cons.1 hq with rfl | hmem
          · exact le_refl _
          · exact le_trans (by omega) (ih (p + 1) q hmem)
      · exact le_trans (by omega) (ih (p + 1) q hq)

theorem probedPorts_ascending (pr : Int → Nat) :
    ∀ (fuel : Nat) (p : Int), (probedPorts pr p fuel).Pairwise (· < ·) := by
  intro fuel
  induction fuel with
  | zero =>
      intro p
      unfold probedPorts
      split <;> simp
  | succ n ih =>
      intro p
      unfold probedPorts
      split
      · split
        · simp
        · refine List.pairwise_cons.2 ⟨?_, ih (p + 1)⟩
          intro q hq
          have := probedPorts_mem pr n (p + 1) q hq
          omega
      · exact ih (p + 1)

/-- Claim C4 (amended): TestForOpenPort returns the first candidate in
[start, start + increment] that is inside the valid port range
(1..65535) and whose 100 ms probe reports nothing listening (any result
other than ERROR_SUCCESS); it probes at most increment + 1 candidates,
in strictly ascending order; and it returns failure exactly when no
candidate in the range is both a valid port and free -- candidates
outside the valid range are skipped without a probe and can never be
chosen, so an all-out-of-range scan also fails even though nothing
occupies those values. -/
theorem testForOpenPort_first_free_valid_port
    (pr : Int → Nat) (start inc q : Int) :
    (testForOpenPort pr start inc = some q ↔
      (start ≤ q ∧ q ≤ start + (inc.toNat : Int) ∧ validPort q ∧ portFree pr q
       ∧ ∀ r, start ≤ r → r < q → ¬(validPort r ∧ portFree pr r)))
    ∧ (testForOpenPort pr start inc = none ↔
      ∀ r, start ≤ r → r ≤ start + (inc.toNat : Int) → ¬(validPort r ∧ portFree pr r))
    ∧ (probedPorts pr start inc.toNat).length ≤ inc.toNat + 1
    ∧ (probedPorts pr start inc.toNat).Pairwise (· < ·) :=
  ⟨testLoop_eq_some pr inc.toNat start q, testLoop_eq_none pr inc.toNat start,
   probedPorts_length pr inc.toNat start, probedPorts_ascending pr inc.toNat start⟩

/-- Counterexample to claim C4 as stated: with nothing listening
anywhere (every probe reports free) and the single candidate 65536, the
negotiation still fails, although no candidate in the range is occupied:
failure is not "exactly when every candidate in the range is occupied". -/
theorem port_negotiation_counterexample :
    testForOpenPort (fun _ => WAIT_TIMEOUT) 65536 0 = none
    ∧ portFree (fun _ => WAIT_TIMEOUT) 65536 = true := by
  exact ⟨by decide, by decide⟩

/-! ### Claims C5, C6, C10: the wait loop and its interaction with
port negotiation -/

/-- A pass whose timeout test at the top of the loop does not fire:
the tick reading is neither below the recorded start (wrapped counter)
nor at or past the (mod 2^32) sum start + maxWait. -/
def inWindow (start maxWait : Nat) (o : ProbeObs) : Prop :=
  ¬(o.now % DWORD_MOD < start % DWORD_MOD
    ∨ (start % DWORD_MOD + maxWait % DWORD_MOD) % DWORD_MOD ≤ o.now % DWORD_MOD)

instance (start maxWait : Nat) (o : ProbeObs) : Decidable (inWindow start maxWait o) :=
  inferInstanceAs (Decidable (¬ _))

/-- Claim C5 (amended): the waiter compares raw DWORD tick values, so a
wrapped counter (or a wrapped start + timeout sum) makes the very next
pass return WAIT_TIMEOUT immediately, cutting the wait short -- the
in-code comment itself notes the "small chance of a shorter timeout".
The separate helper GetTickCountDiff does compute a bounded wrap-adjusted
elapsed value (one millisecond short of the true elapsed time across a
wrap), but the waiter does not use it. -/
theorem waiter_wrap_causes_immediate_timeout
    (start maxWait : Nat) (hasProcess : Bool) (o : ProbeObs) (rest : List ProbeObs)
    (hwrap : ¬ inWindow start maxWait o) :
    waitLoop start maxWait hasProcess (o :: rest) = some WAIT_TIMEOUT
    ∧ ∀ s e : Nat, 0 < s → s < DWORD_MOD → e < s →
        getTickCountDiff s e = DWORD_MOD - s + e - 1 := by
  constructor
  · unfold waitLoop
    rw [if_pos (not_not.mp hwrap)]
  · intro s e hs hsmod he
    unfold getTickCountDiff
    rw [if_neg (by omega), if_pos he]
    simp only [MAXDWORD, DWORD_MOD] at hsmod ⊢
    omega

/-- A pass at tick 2^32 - 900 against a start of 2^32 - 1000 and a 20 s
timeout: only 100 ms have genuinely elapsed, but start + 20000 wraps
mod 2^32, so the waiter times out at once.  A fully wrapped reading
(now = 5) after the same start gives the same early timeout. -/
theorem waiter_wrap_causes_immediate_timeout_witness :
    ¬ inWindow 4294966296 20000 ⟨4294966396, false, false, false⟩
    ∧ waitLoop 4294966296 20000 true [⟨4294966396, false, false, false⟩] = some WAIT_TIMEOUT
    ∧ getTickCountDiff 10 4 = DWORD_MOD - 10 + 4 - 1 :=
  ⟨by decide,
    (waiter_wrap_causes_immediate_timeout 4294966296 20000 true
      ⟨4294966396, false, false, false⟩ [] (by decide)).1,
    (waiter_wrap_causes_immediate_timeout 4294966296 20000 true
      ⟨4294966396, false, false, false⟩ [] (by decide)).2 10 4
      (by decide) (by decide) (by decide)⟩

/-- Counterexample to claim C5 as stated: genuine elapsed time of 100 ms
(well under the 20 s timeout), yet the wait times out because the DWORD
sum start + timeout wrapped; and with a wrapped tick reading (now = 5,
genuine elapsed 1005 ms) it also times out immediately. -/
theorem waiter_wrap_counterexample :
    waitForConnectability 1080 20000 true 4294966296
        [⟨4294966396, false, false, false⟩] = some WAIT_TIMEOUT
    ∧ 4294966396 - 4294966296 = 100
    ∧ (100 : Nat) < 20000
    ∧ waitForConnectability 1080 20000 true 4294966296
        [⟨5, false, false, false⟩] = some WAIT_TIMEOUT
    ∧ DWORD_MOD - 4294966296 + 5 = 1005
    ∧ (1005 : Nat) < 20000 := by
  refine ⟨by decide, by decide, by decide, by decide, by decide, by decide⟩

/-- Claim C6: within one pass of the wait loop, the probe attempt is
decided first: a successful connect returns ERROR_SUCCESS no matter what
the process handle or the stop signal say (they are only consulted after
a failed attempt); on a failed attempt with the process handle signalled
dead, the waiter returns ERROR_SYSTEM_PROCESS_TERMINATED regardless of
the stop signal (death precedes cancellation); and over a whole run with
no successful probe and no stop request, death observed at any pass
yields ERROR_SYSTEM_PROCESS_TERMINATED. -/
theorem waiter_probe_first_death_precedes_stop :
    (∀ (start maxWait : Nat) (hasProcess : Bool) (o : ProbeObs) (rest : List ProbeObs),
      inWindow start maxWait o → o.connectOk = true →
        waitLoop start maxWait hasProcess (o :: rest) = some ERROR_SUCCESS)
    ∧ (∀ (start maxWait : Nat) (o : ProbeObs) (rest : List ProbeObs),
      inWindow start maxWait o → o.connectOk = false → o.processDead = true →
        waitLoop start maxWait true (o :: rest) = some ERROR_SYSTEM_PROCESS_TERMINATED)
    ∧ (∀ (start maxWait : Nat) (trace : List ProbeObs),
      (∀ o ∈ trace, inWindow start maxWait o ∧ o.connectOk = false
        ∧ o.stopSignalled = false) →
      (∃ o ∈ trace, o.processDead = true) →
        waitLoop start maxWait true trace = some ERROR_SYSTEM_PROCESS_TERMINATED) := by
  refine ⟨?_, ?_, ?_⟩
  · intro start maxWait hasProcess o rest hwin hconn
    unfold waitLoop
    rw [if_neg hwin, if_pos hconn]
  · intro start maxWait o rest hwin hconn hdead
    unfold waitLoop
    rw [if_neg hwin, if_neg (by simp [hconn]), if_pos ⟨rfl, hdead⟩]
  · intro start maxWait trace
    induction trace with
    | nil =>
        rintro _ ⟨o, ho, _⟩
        cases ho
    | cons o rest ih =>
        rintro hall ⟨w, hw, hwdead⟩
        obtain ⟨hwin, hconn, hstop⟩ := hall o (List.mem_cons_self o rest)
        unfold waitLoop
        rw [if_neg hwin, if_neg (by simp [hconn])]
        by_cases hdead : o.processDead = true
        · rw [if_pos ⟨rfl, hdead⟩]
        · rw [if_neg (by simp [hdead]), if_neg (by simp [hstop])]
          refine ih (fun x hx => hall x (List.mem_cons_of_mem _ hx)) ⟨w, ?_, hwdead⟩
          rcases List.mem_cons.1 hw with rfl | hmem
          · exact absurd hwdead hdead
          · exact hmem

theorem waiter_probe_first_death_precedes_stop_witness :
    (inWindow 0 20000 ⟨1, true, true, true⟩
      ∧ waitLoop 0 20000 true [⟨1, true, true, true⟩] = some ERROR_SUCCESS)
    ∧ (inWindow 0 20000 ⟨1, false, true, true⟩
      ∧ waitLoop 0 20000 true [⟨1, false, true, true⟩]
          = some ERROR_SYSTEM_PROCESS_TERMINATED)
    ∧ waitLoop 0 20000 true [⟨1, false, false, false⟩, ⟨2, false, true, false⟩]
        = some ERROR_SYSTEM_PROCESS_TERMINATED :=
  ⟨⟨by decide,
     waiter_probe_first_death_precedes_stop.1 0 20000 true
       ⟨1, true, true, true⟩ [] (by decide) rfl⟩,
   ⟨by decide,
     waiter_probe_first_death_precedes_stop.2.1 0 20000
       ⟨1, false, true, true⟩ [] (by decide) rfl rfl⟩,
   waiter_probe_first_death_precedes_stop.2.2 0 20000
     [⟨1, false, false, false⟩, ⟨2, false, true, false⟩]
     (by decide) ⟨⟨2, false, true, false⟩, by decide, rfl⟩⟩

/-- Claim C10 (amended): when the stop signal is observed during a probe
pass whose connect attempt failed, the 100 ms probe returns
ERROR_OPERATION_ABORTED, and TestForOpenPort -- which treats every
non-ERROR_SUCCESS result as "nothing listening" -- stops and reports the
current candidate as the chosen port, even if a listener occupies it;
but when the connect attempt of the pass succeeds (a responsive
listener), the probe returns ERROR_SUCCESS despite the raised stop
signal and the candidate is treated as occupied. -/
theorem stop_during_failed_probe_candidate_reported_free
    (pr : Int → Nat) (p inc : Int) (start : Nat) (o : ProbeObs) (rest : List ProbeObs)
    (hvalid : validPort p = true)
    (hwin : inWindow start 100 o)
    (hconn : o.connectOk = false)
    (hstop : o.stopSignalled = true)
    (hpr : pr p = ERROR_OPERATION_ABORTED) :
    waitForConnectability p.toNat 100 false start (o :: rest)
        = some ERROR_OPERATION_ABORTED
    ∧ testForOpenPort pr p inc = some p := by
  constructor
  · unfold waitForConnectability
    have hb : 0 < p ∧ p ≤ 65535 := by simpa [validPort] using hvalid
    rw [if_neg (by omega)]
    unfold waitLoop
    rw [if_neg hwin, if_neg (by simp [hconn]), if_neg (by simp), if_pos hstop]
  · have hfree : portFree pr p = true := by
      simp [portFree, hpr, ERROR_OPERATION_ABORTED, ERROR_SUCCESS]
    unfold testForOpenPort
    cases hn : inc.toNat with
    | zero => unfold testLoop; rw [if_pos ⟨hvalid, hfree⟩]
    | succ n => unfold testLoop; rw [if_pos ⟨hvalid, hfree⟩]

theorem stop_during_failed_probe_candidate_reported_free_witness :
    (validPort 1080 = true ∧ inWindow 0 100 ⟨5, false, false, true⟩)
    ∧ waitForConnectability 1080 100 false 0 [⟨5, false, false, true⟩]
        = some ERROR_OPERATION_ABORTED
    ∧ testForOpenPort (fun _ => ERROR_OPERATION_ABORTED) 1080 10 = some 1080 :=
  ⟨⟨by decide, by decide⟩,
    (stop_during_failed_probe_candidate_reported_free
      (fun _ => ERROR_OPERATION_ABORTED) 1080 10 0 ⟨5, false, false, true⟩ []
      (by decide) (by decide) rfl rfl rfl).1,
    (stop_during_failed_probe_candidate_reported_free
      (fun _ => ERROR_OPERATION_ABORTED) 1080 10 0 ⟨5, false, false, true⟩ []
      (by decide) (by decide) rfl rfl rfl).2⟩

/-- Counterexample to claim C10 as stated: the stop signal is raised
during the probe of candidate 1080 while a responsive listener occupies
it; the probe returns ERROR_SUCCESS, not ERROR_OPERATION_ABORTED, and
the negotiation treats 1080 as occupied, moving on to 1081 -- the
candidate is not reported available. -/
theorem stop_with_responsive_listener_counterexample :
    ProbeObs.stopSignalled ⟨5, true, false, true⟩ = true
    ∧ waitForConnectability 1080 100 false 0 [⟨5, true, false, true⟩]
        = some ERROR_SUCCESS
    ∧ testForOpenPort (fun q => if q = 1080 then ERROR_SUCCESS else WAIT_TIMEOUT)
        1080 10 = some 1081 := by
  refine ⟨rfl, by decide, by decide⟩
